import Mathlib

/-!
# Verification of the tyr HTTP pipeline core

A shallow embedding of the request-dispatch and body-decoding pipeline of the
tyr web framework: response objects, error chain, router, middleware chain,
parser registry, JSON body decoder and multipart decoder, each translated
from the TypeScript sources, together with theorems settling the frozen
specification claims.
-/

set_option autoImplicit false

namespace Tyr

/-! ## Errors (src/core/errors.ts)

`TyrError` carries a message, a numeric status code and an optional structured
detail payload.  `BadRequestError` fixes the status code to 400,
`NotFoundError` to 404. -/

structure TyrErr where
  message : String
  statusCode : Nat
  details : Option String := none
deriving DecidableEq

instance {ε α : Type} [DecidableEq ε] [DecidableEq α] : DecidableEq (Except ε α) :=
  fun x y => by
    cases x <;> cases y <;> first
      | (apply isFalse; intro h; exact Except.noConfusion h)
      | (rename_i u v
         exact if hv : u = v then isTrue (by rw [hv]) else
           isFalse (by intro h; cases h; exact hv rfl))

def badRequest (msg : String) : TyrErr :=
  { message := msg, statusCode := 400 }

def notFound (msg : String) : TyrErr :=
  { message := msg, statusCode := 404 }

/-! ## JSON values

JavaScript values produced by `JSON.parse` and consumed by `res.json`.
Numeric literals are represented by their integer part only: floating-point
value semantics are not embedded, but syntactic acceptance (which is all the
claims refer to) is faithful. -/

inductive JVal where
  | jnull
  | jbool (b : Bool)
  | jnum (n : Int)
  | jstr (s : String)
  | jarr (xs : List JVal)
  | jobj (fields : List (String × JVal))

/-! ## Response objects (src/core/response.ts)

`ServerResponse` wraps the raw node response.  `status` sets the raw status
code without consulting the `sent` flag; `header`, `json`, `send` and
`redirect` all call `checkSent` first, which throws once `sent = true`
(the `ResponseAlreadySent` condition, surfaced as the string
"Response has already been sent"). -/

inductive Payload where
  | pjson (v : JVal)
  | ptext (s : String)
  | pempty

structure Resp where
  statusCode : Nat
  headers : List (String × String)
  body : Option Payload
  sent : Bool

/-- JavaScript-object property update: replaces in place when the key exists,
appends otherwise (headers are stored under lower-cased names). -/
def upsert (l : List (String × String)) (k v : String) : List (String × String) :=
  match l with
  | [] => [(k, v)]
  | (k', v') :: rest => if k' = k then (k, v) :: rest else (k', v') :: upsert rest k v

def lowerStr (s : String) : String :=
  ⟨s.data.map Char.toLower⟩

def alreadySentMsg : String := "Response has already been sent"

def Resp.checkSent (r : Resp) : Except String Unit :=
  if r.sent then .error alreadySentMsg else .ok ()

/-- `status(code)`: sets the raw status code; performs NO `checkSent` call. -/
def Resp.status (r : Resp) (code : Nat) : Resp :=
  { r with statusCode := code }

def Resp.setHeaderRaw (r : Resp) (name value : String) : Resp :=
  { r with headers := upsert r.headers (lowerStr name) value }

def Resp.header (r : Resp) (name value : String) : Except String Resp :=
  match r.checkSent with
  | .error e => .error e
  | .ok _ => .ok (r.setHeaderRaw name value)

def Resp.json (r : Resp) (data : JVal) : Except String Resp :=
  match r.checkSent with
  | .error e => .error e
  | .ok _ =>
    let r1 := r.setHeaderRaw ("Content-Type") ("application/json")
    .ok { r1 with body := some (.pjson data), sent := true }

def Resp.send (r : Resp) (data : String) : Except String Resp :=
  match r.checkSent with
  | .error e => .error e
  | .ok _ =>
    let r1 := r.setHeaderRaw ("Content-Type") ("text/plain")
    .ok { r1 with body := some (.ptext data), sent := true }

def Resp.redirect (r : Resp) (url : String) (code : Nat) : Except String Resp :=
  match r.checkSent with
  | .error e => .error e
  | .ok _ =>
    let r1 := (r.setHeaderRaw ("Location") url).status code
    .ok { r1 with body := some .pempty, sent := true }

/-- A freshly constructed response: the constructor sets the default
`Content-Type: application/json` header; node's raw status code starts at
200 and nothing has been sent. -/
def freshResp : Resp :=
  { statusCode := 200
    headers := [("content-type", "application/json")]
    body := none
    sent := false }

/-! Mutation-attempt sequences against one response, used to state the
"exactly one of json/send/redirect succeeds" invariant. -/

inductive ROp where
  | opStatus (c : Nat)
  | opHeader (n v : String)
  | opJson (v : JVal)
  | opSend (s : String)
  | opRedirect (u : String) (c : Nat)

def applyROp (r : Resp) : ROp → Except String Resp
  | .opStatus c => .ok (r.status c)
  | .opHeader n v => r.header n v
  | .opJson v => r.json v
  | .opSend s => r.send s
  | .opRedirect u c => r.redirect u c

def isSender : ROp → Bool
  | .opJson _ => true
  | .opSend _ => true
  | .opRedirect _ _ => true
  | _ => false

/-- Runs a sequence of mutation attempts against a response; a failed attempt
leaves the response unchanged.  Returns the final response together with the
number of send-class operations (`json`, `send`, `redirect`) that succeeded. -/
def runOps : Resp → List ROp → Resp × Nat
  | r, [] => (r, 0)
  | r, op :: ops =>
    match applyROp r op with
    | .ok r' =>
      let (rf, n) := runOps r' ops
      (rf, n + (if isSender op then 1 else 0))
    | .error _ => runOps r ops

/-! ## Error chain (src/core/server.ts)

`Server.handleError` normalises the error, then tries each registered error
handler in array order inside a `try`/`catch`: a handler that throws is
caught and logged and the loop proceeds; a handler after which `res.sent`
holds ends the loop.  If after the loop no handler has sent, the built-in
`defaultErrorHandler` is invoked.  The `Server` constructor itself registers
`defaultErrorHandler` as the FIRST entry of `errorHandlers`; `onError`
appends after it.

A handler is modelled by its observable effect: given the error and the
current response it yields the updated response and whether it threw. -/

def EHandler : Type := TyrErr → Resp → Resp × Bool

/-- `defaultErrorHandler`: `res.status(error.statusCode || 500).json({error:
{message, statusCode, details?}})`.  A zero status code is JS-falsy, hence
replaced by 500.  `json` can only throw when the response was already sent;
the boolean records whether it did. -/
def defaultErrorHandler : EHandler := fun e r =>
  let code := if e.statusCode = 0 then 500 else e.statusCode
  let body : JVal :=
    .jobj [("error", .jobj
      ([("message", .jstr e.message), ("statusCode", .jnum (Int.ofNat code))] ++
        (match e.details with
         | some d => [("details", .jstr d)]
         | none => [])))]
  match (r.status code).json body with
  | .ok r' => (r', false)
  | .error _ => (r.status code, true)

/-- The `for (const handler of this.errorHandlers)` loop of `handleError`:
a throwing handler is caught and the loop proceeds; after a non-throwing
handler the loop stops as soon as `res.sent`. -/
def handleErrorLoop : List EHandler → TyrErr → Resp → Resp
  | [], _, r => r
  | h :: hs, e, r =>
    match h e r with
    | (r', true) => handleErrorLoop hs e r'
    | (r', false) => if r'.sent then r' else handleErrorLoop hs e r'

/-- `handleError` over an explicit handler list: run the loop, then fall back
to `defaultErrorHandler` when no handler sent a response. -/
def handleError (hs : List EHandler) (e : TyrErr) (r : Resp) : Resp :=
  let r1 := handleErrorLoop hs e r
  if r1.sent then r1 else (defaultErrorHandler e r1).1

/-- The handler list of a server whose user registered `user` via `onError`,
in order: the constructor pushes `defaultErrorHandler` first. -/
def serverErrorHandlers (user : List EHandler) : List EHandler :=
  defaultErrorHandler :: user

def serverHandleError (user : List EHandler) (e : TyrErr) (r : Resp) : Resp :=
  handleError (serverErrorHandlers user) e r

/-! ## Middleware chain (src/core/middleware.ts)

`MiddlewareChain.execute` holds a cursor `index`; the continuation fetches
`middleware[index++]` and, when defined, runs it (passing the same
continuation).  A handler body is modelled by how often it calls the
continuation and what it does in between: `ret` returns without calling it,
`next k` calls the continuation once and then continues as `k`.  The machine
returns the final cursor value and the log of chain positions that were
invoked; there is no error channel because the chain catches nothing and
raises nothing of its own. -/

inductive HProg where
  | ret
  | next (k : HProg)
deriving DecidableEq

/-- One continuation call starting from program `p`, cursor `i` and
invocation log `log`.  The returned cursor never decreases, which also
bounds the recursion: each handler in the chain is fetched at most once. -/
def runProg (chain : List HProg) : (p : HProg) → (i : Nat) → (log : List Nat) →
    { r : Nat × List Nat // i ≤ r.1 }
  | .ret, i, log => ⟨(i, log), Nat.le_refl i⟩
  | .next k, i, log =>
    match hc : chain[i]? with
    | none =>
      let r := runProg chain k (i + 1) log
      ⟨r.val, Nat.le_trans (Nat.le_succ i) r.property⟩
    | some h =>
      match runProg chain h (i + 1) (log ++ [i]) with
      | ⟨(i1, log1), hp1⟩ =>
        match runProg chain k i1 log1 with
        | ⟨(i2, log2), hp2⟩ =>
          ⟨(i2, log2), Nat.le_trans (Nat.le_trans (Nat.le_succ i) hp1) hp2⟩
termination_by p i log => (chain.length - i, sizeOf p)
decreasing_by
  · have hlen : chain.length ≤ i := List.getElem?_eq_none_iff.mp hc
    have h1 : chain.length - i = 0 := by omega
    have h2 : chain.length - (i + 1) = 0 := by omega
    rw [h1, h2]
    exact Prod.Lex.right 0 (by rw [HProg.next.sizeOf_spec]; omega)
  · have hi : i < chain.length := by
      rcases List.getElem?_eq_some.mp hc with ⟨h', _⟩
      exact h'
    exact Prod.Lex.left _ _ (by omega)
  · have hi : i < chain.length := by
      rcases List.getElem?_eq_some.mp hc with ⟨h', _⟩
      exact h'
    exact Prod.Lex.left _ _ (by omega)

/-- `execute(req, res)`: initialises the cursor to 0 and performs one initial
continuation call. -/
def MiddlewareChain.execute (chain : List HProg) : Nat × List Nat :=
  (runProg chain (.next .ret) 0 []).val

/-! ## String helpers shared by detect predicates and the multipart decoder -/

/-- Index of the first occurrence of `needle` in a character list
(`String.prototype.indexOf` / `Buffer.prototype.indexOf`). -/
def findSubIdx (needle : List Char) : List Char → Option Nat
  | [] => if needle.isEmpty then some 0 else none
  | s@(_ :: rest) =>
    if needle.isPrefixOf s then some 0 else (findSubIdx needle rest).map (· + 1)

/-- `hay.indexOf(needle, start)`. -/
def indexOfFrom (hay needle : List Char) (start : Nat) : Option Nat :=
  (findSubIdx needle (hay.drop start)).map (· + start)

/-- `hay.includes(needle)` on strings. -/
def containsSub (hay needle : String) : Bool :=
  (findSubIdx needle.data hay.data).isSome

/-! ## Parser registry (src/middleware/body-parser/registry.ts)

The registry is an ordered list; `registerParser` appends, `findParser`
returns `undefined` for a falsy (empty) content type and otherwise the first
parser whose `detect` accepts it.  Only the parser identity and its `detect`
predicate are observable through the registry. -/

structure Parser where
  id : String
  detect : String → Bool

def registerParser (regs : List Parser) (p : Parser) : List Parser :=
  regs ++ [p]

def findParser (regs : List Parser) (contentType : String) : Option Parser :=
  if contentType = "" then none
  else regs.find? (fun p => p.detect contentType)

/-! The five built-in parsers as configured by
`Server.configureBodyParsers(true)` (default options: no `type` allow-list on
the raw parser). -/

def JsonParser.detect (ct : String) : Bool :=
  containsSub (lowerStr ct) ("application/json")

def UrlEncodedParser.detect (ct : String) : Bool :=
  containsSub (lowerStr ct) ("application/x-www-form-urlencoded")

/-- `RawParser.detect`: validates against the configured `type` allow-list
when one is present (substring match, case-insensitive), and otherwise
accepts every content type. -/
def RawParser.detect (types : List String) (ct : String) : Bool :=
  if types.isEmpty then true
  else types.any (fun t => containsSub (lowerStr ct) (lowerStr t))

def TextParser.detect (ct : String) : Bool :=
  containsSub (lowerStr ct) ("text/")

def MultipartParser.detect (ct : String) : Bool :=
  containsSub (lowerStr ct) ("multipart/form-data")

def jsonParser : Parser := { id := "json", detect := JsonParser.detect }
def urlencodedParser : Parser := { id := "urlencoded", detect := UrlEncodedParser.detect }
def rawParser : Parser := { id := "raw", detect := RawParser.detect [] }
def textParser : Parser := { id := "text", detect := TextParser.detect }
def multipartParser : Parser := { id := "multipart", detect := MultipartParser.detect }

/-- `configureBodyParsers(true)`: clears the registry, then registers the
JSON, url-encoded, raw, text and multipart parsers in that order. -/
def configureBodyParsersDefault : List Parser :=
  registerParser (registerParser (registerParser (registerParser (registerParser
    [] jsonParser) urlencodedParser) rawParser) textParser) multipartParser

/-! ## Requests and lazy body decoding (src/core/request.ts)

`getBody` returns the cached body when `bodyParsed` is set; otherwise it
requires a content-type header, looks up a parser in the registry, runs it
(the only step that reads the underlying stream), caches `result.parsed` and
sets `bodyParsed`.  The final component of the result records whether a
parser was invoked (equivalently, whether the stream was read). -/

structure Req where
  contentType : Option String
  raw : String
  body : JVal
  bodyParsed : Bool

def getBody (regs : List Parser) (parseOf : String → String → Except TyrErr JVal)
    (r : Req) : Except TyrErr JVal × Req × Bool :=
  if r.bodyParsed then (.ok r.body, r, false)
  else
    match r.contentType with
    | none => (.error (badRequest ("Content-Type header missing")), r, false)
    | some ct =>
      match findParser regs ct with
      | none => (.error (badRequest ("Unsupported content type: " ++ ct)), r, false)
      | some p =>
        match parseOf p.id r.raw with
        | .error e => (.error e, r, true)
        | .ok v => (.ok v, { r with body := v, bodyParsed := true }, true)

/-! ## Router (src/core/router.ts)

`createRoutePattern` turns a path template into a regular-expression source
in two global replacements: `/:name` (name = a maximal nonempty run of
non-`/` characters) becomes `/([^/]+)` while recording the parameter name,
and every remaining `*` becomes `.*`.  Templates are represented by the
token strings those patterns denote: literal characters, `.` (any single
character), one capturing `([^/]+)` group per parameter, and `.*`. -/

inductive Tok1 where
  | ch (c : Char)
  | grp
deriving DecidableEq

inductive PTok where
  | lit (c : Char)
  | anyChar
  | capture
  | wildcard
deriving DecidableEq

/-- First replacement pass: `path.replace(/\/:([^/]+)/g, ...)`, collecting
parameter names in order.  A `/:` not followed by a non-`/` character is not
a parameter occurrence and its `/` stays literal.  The fuel only bounds the
recursion; the input length always suffices since every step consumes at
least one character. -/
def stage1 : Nat → List Char → List Tok1 × List String
  | 0, _ => ([], [])
  | _, [] => ([], [])
  | fuel + 1, '/' :: ':' :: rest =>
    let name := rest.takeWhile (· ≠ '/')
    if name.isEmpty then
      let (ts, ns) := stage1 fuel (':' :: rest)
      (.ch '/' :: ts, ns)
    else
      let (ts, ns) := stage1 fuel (rest.drop name.length)
      (.ch '/' :: .grp :: ts, (⟨name⟩ : String) :: ns)
  | fuel + 1, c :: rest =>
    let (ts, ns) := stage1 fuel rest
    (.ch c :: ts, ns)

/-- Second replacement pass, `*` → `.*`, together with the meaning regex
compilation assigns to the remaining characters (`.` matches any single
character; templates are assumed to contain no other regex metacharacter). -/
def stage2 : List Tok1 → List PTok
  | [] => []
  | .grp :: ts => .capture :: stage2 ts
  | .ch '*' :: ts => .wildcard :: stage2 ts
  | .ch '.' :: ts => .anyChar :: stage2 ts
  | .ch c :: ts => .lit c :: stage2 ts

structure RoutePattern where
  toks : List PTok
  paramNames : List String
deriving DecidableEq

def createRoutePattern (path : String) : RoutePattern :=
  let (ts, names) := stage1 (path.data.length + 1) path.data
  { toks := stage2 ts, paramNames := names }

/-! Anchored matching of a compiled pattern (`^...$`) with JavaScript's
leftmost-greedy backtracking semantics: `([^/]+)` and `.*` both prefer the
longest extent and backtrack on failure.  `matchToks` returns the list of
captured substrings in group order when the whole input matches. -/

/-- Candidate extents for a greedy subpattern over `xs`, longest first. -/
def capLens (xs : List Char) : List Nat :=
  (List.range (xs.length + 1)).reverse

def matchToks : List PTok → List Char → Option (List String)
  | [], xs => if xs.isEmpty then some [] else none
  | .lit c :: ts, xs =>
    match xs with
    | [] => none
    | x :: xs' => if x = c then matchToks ts xs' else none
  | .anyChar :: ts, xs =>
    match xs with
    | [] => none
    | _ :: xs' => matchToks ts xs'
  | .capture :: ts, xs =>
    (capLens xs).findSome? (fun k =>
      if k ≠ 0 ∧ (xs.take k).all (· ≠ '/') then
        match matchToks ts (xs.drop k) with
        | some cs => some ((⟨xs.take k⟩ : String) :: cs)
        | none => none
      else none)
  | .wildcard :: ts, xs =>
    (capLens xs).findSome? (fun k => matchToks ts (xs.drop k))

/-- `path.match(pattern)` against the anchored compiled pattern. -/
def pathMatch (rp : RoutePattern) (path : String) : Option (List String) :=
  matchToks rp.toks path.data

/-- Positional parameter binding:
`paramNames.forEach((name, i) => params[name] = match[i + 1] || '')` —
a missing (or empty) capture binds the name to the empty string. -/
def bindParams : List String → List String → List (String × String)
  | [], _ => []
  | n :: ns, [] => (n, "") :: bindParams ns []
  | n :: ns, c :: cs => (n, c) :: bindParams ns cs

/-! JavaScript `Map` as an insertion-ordered association list: `set` updates
in place when the key exists and appends otherwise. -/

def jsMapSet {κ α : Type} [DecidableEq κ] (m : List (κ × α)) (k : κ) (v : α) :
    List (κ × α) :=
  match m with
  | [] => [(k, v)]
  | (k', v') :: rest => if k' = k then (k, v) :: rest else (k', v') :: jsMapSet rest k v

def jsMapGet {κ α : Type} [DecidableEq κ] (m : List (κ × α)) (k : κ) : Option α :=
  match m with
  | [] => none
  | (k', v') :: rest => if k' = k then some v' else jsMapGet rest k

inductive HttpMethod where
  | GET | POST | PUT | DELETE | PATCH | HEAD | OPTIONS
deriving DecidableEq

/-- A registered route; the opaque handler function is identified by a
number. -/
structure RouteEntry where
  method : HttpMethod
  path : String
  handlerId : Nat
deriving DecidableEq

structure Router where
  routes : List (String × List (HttpMethod × RouteEntry))
  patterns : List (String × RoutePattern)

def Router.empty : Router := ⟨[], []⟩

def Router.addRoute (r : Router) (method : HttpMethod) (path : String)
    (handlerId : Nat) : Router :=
  let cp := createRoutePattern path
  let methods := (jsMapGet r.routes path).getD []
  { routes := jsMapSet r.routes path
      (jsMapSet methods method { method := method, path := path, handlerId := handlerId })
    patterns := jsMapSet r.patterns path cp }

/-- The scan of `findRoute`: routes are visited in registration order; an
entry whose pattern is absent, whose pattern does not match the path, or
whose method map lacks the requested method is skipped (`continue`). -/
def findRouteScan (patterns : List (String × RoutePattern)) (method : HttpMethod)
    (path : String) :
    List (String × List (HttpMethod × RouteEntry)) →
      Option (RouteEntry × List (String × String))
  | [] => none
  | (routePath, methods) :: rest =>
    match jsMapGet patterns routePath with
    | none => findRouteScan patterns method path rest
    | some rp =>
      match pathMatch rp path with
      | none => findRouteScan patterns method path rest
      | some caps =>
        match jsMapGet methods method with
        | none => findRouteScan patterns method path rest
        | some route => some (route, bindParams rp.paramNames caps)

def Router.findRoute (r : Router) (method : HttpMethod) (path : String) :
    Option (RouteEntry × List (String × String)) :=
  findRouteScan r.patterns method path r.routes

/-- Whether one table entry resolves: its pattern exists and matches the
path, and the requested method is registered under it. -/
def entryResolves (patterns : List (String × RoutePattern)) (method : HttpMethod)
    (path : String) (e : String × List (HttpMethod × RouteEntry)) : Bool :=
  match jsMapGet patterns e.1 with
  | none => false
  | some rp => (pathMatch rp path).isSome && (jsMapGet e.2 method).isSome

/-! ## JSON decoding (src/middleware/body-parser/json.ts)

`JSON.parse` on a fully buffered body, modelled by a recursive-descent
parser for the RFC 8259 grammar.  The fuel argument only bounds the
recursion; `2 * length + 2` always suffices because every nesting level
consumes at least one character.  Numeric literals keep their syntax checks
but evaluate to their integer part (see `JVal`). -/

def jsonWs (c : Char) : Bool :=
  c = ' ' ∨ c = '\t' ∨ c = '\n' ∨ c = '\r'

def skipWs (s : List Char) : List Char :=
  s.dropWhile jsonWs

def isHexDigit (c : Char) : Bool :=
  ('0' ≤ c ∧ c ≤ '9') ∨ ('a' ≤ c ∧ c ≤ 'f') ∨ ('A' ≤ c ∧ c ≤ 'F')

def isDigitCh (c : Char) : Bool :=
  '0' ≤ c ∧ c ≤ '9'

def hexVal (c : Char) : Nat :=
  if '0' ≤ c ∧ c ≤ '9' then c.toNat - '0'.toNat
  else if 'a' ≤ c ∧ c ≤ 'f' then c.toNat - 'a'.toNat + 10
  else c.toNat - 'A'.toNat + 10

/-- Body of a JSON string literal, after the opening quote: ordinary
characters (no control characters), the short escapes and `\uXXXX`. -/
def parseStrBody : List Char → Option (List Char × List Char)
  | [] => none
  | '"' :: rest => some ([], rest)
  | '\\' :: 'u' :: a :: b :: c :: d :: rest =>
    if isHexDigit a ∧ isHexDigit b ∧ isHexDigit c ∧ isHexDigit d then
      match parseStrBody rest with
      | some (cs, rest') =>
        some (Char.ofNat (((hexVal a * 16 + hexVal b) * 16 + hexVal c) * 16 + hexVal d) :: cs, rest')
      | none => none
    else none
  | '\\' :: e :: rest =>
    let c? : Option Char :=
      if e = '"' then some '"'
      else if e = '\\' then some '\\'
      else if e = '/' then some '/'
      else if e = 'b' then some (Char.ofNat 8)
      else if e = 'f' then some (Char.ofNat 12)
      else if e = 'n' then some '\n'
      else if e = 'r' then some '\r'
      else if e = 't' then some '\t'
      else none
    match c? with
    | none => none
    | some c =>
      match parseStrBody rest with
      | some (cs, rest') => some (c :: cs, rest')
      | none => none
  | c :: rest =>
    if c.toNat < 32 then none
    else
      match parseStrBody rest with
      | some (cs, rest') => some (c :: cs, rest')
      | none => none

def digitsToNat (ds : List Char) : Nat :=
  ds.foldl (fun acc d => acc * 10 + (d.toNat - '0'.toNat)) 0

/-- A JSON number literal: `-? (0 | [1-9][0-9]*) (. [0-9]+)? ([eE][+-]?[0-9]+)?`.
Returns its integer part and the remaining input. -/
def parseNum (s : List Char) : Option (Int × List Char) :=
  let (neg, s1) := match s with
    | '-' :: rest => (true, rest)
    | _ => (false, s)
  let intPart : Option (List Char × List Char) :=
    match s1 with
    | '0' :: rest => some (['0'], rest)
    | c :: rest =>
      if isDigitCh c ∧ c ≠ '0' then
        some (c :: rest.takeWhile isDigitCh, rest.dropWhile isDigitCh)
      else none
    | [] => none
  match intPart with
  | none => none
  | some (ds, s2) =>
    let fracOk : Option (List Char) :=
      match s2 with
      | '.' :: rest =>
        let fd := rest.takeWhile isDigitCh
        if fd.isEmpty then none else some (rest.dropWhile isDigitCh)
      | _ => some s2
    match fracOk with
    | none => none
    | some s3 =>
      let expOk : Option (List Char) :=
        match s3 with
        | e :: rest =>
          if e = 'e' ∨ e = 'E' then
            let rest2 := match rest with
              | sgn :: r2 => if sgn = '+' ∨ sgn = '-' then r2 else rest
              | [] => rest
            let ed := rest2.takeWhile isDigitCh
            if ed.isEmpty then none else some (rest2.dropWhile isDigitCh)
          else some s3
        | [] => some s3
      match expOk with
      | none => none
      | some s4 =>
        let n : Int := Int.ofNat (digitsToNat ds)
        some (if neg then -n else n, s4)

mutual

def parseVal : Nat → List Char → Option (JVal × List Char)
  | 0, _ => none
  | fuel + 1, s =>
    match skipWs s with
    | 'n' :: 'u' :: 'l' :: 'l' :: rest => some (.jnull, rest)
    | 't' :: 'r' :: 'u' :: 'e' :: rest => some (.jbool true, rest)
    | 'f' :: 'a' :: 'l' :: 's' :: 'e' :: rest => some (.jbool false, rest)
    | '"' :: rest =>
      match parseStrBody rest with
      | some (cs, rest') => some (.jstr ⟨cs⟩, rest')
      | none => none
    | '[' :: rest =>
      (match skipWs rest with
       | ']' :: rest' => some (.jarr [], rest')
       | _ =>
         match parseElems fuel rest with
         | some (xs, rest') => some (.jarr xs, rest')
         | none => none)
    | '{' :: rest =>
      (match skipWs rest with
       | '}' :: rest' => some (.jobj [], rest')
       | _ =>
         match parseMembers fuel rest with
         | some (fs, rest') => some (.jobj fs, rest')
         | none => none)
    | other =>
      match parseNum other with
      | some (n, rest) => some (.jnum n, rest)
      | none => none

def parseElems : Nat → List Char → Option (List JVal × List Char)
  | 0, _ => none
  | fuel + 1, s =>
    match parseVal fuel s with
    | none => none
    | some (v, rest) =>
      match skipWs rest with
      | ',' :: rest' =>
        (match parseElems fuel rest' with
         | some (vs, rest2) => some (v :: vs, rest2)
         | none => none)
      | ']' :: rest' => some ([v], rest')
      | _ => none

def parseMembers : Nat → List Char → Option (List (String × JVal) × List Char)
  | 0, _ => none
  | fuel + 1, s =>
    match skipWs s with
    | '"' :: rest =>
      (match parseStrBody rest with
       | none => none
       | some (k, rest1) =>
         match skipWs rest1 with
         | ':' :: rest2 =>
           (match parseVal fuel rest2 with
            | none => none
            | some (v, rest3) =>
              match skipWs rest3 with
              | ',' :: rest4 =>
                (match parseMembers fuel rest4 with
                 | some (fs, rest5) => some (((⟨k⟩ : String), v) :: fs, rest5)
                 | none => none)
              | '}' :: rest4 => some ([((⟨k⟩ : String), v)], rest4)
              | _ => none)
         | _ => none)
    | _ => none

end

/-- `JSON.parse(text)`: a single value surrounded by whitespace. -/
def jsonParse (text : String) : Option JVal :=
  match parseVal (2 * text.data.length + 2) text.data with
  | none => none
  | some (v, rest) => if (skipWs rest).isEmpty then some v else none

/-- `JsonParser` configuration: `strict` defaults to `true` in the
constructor. -/
structure JsonCfg where
  strict : Bool := true

/-- `JsonParser.parse` on the buffered body: an empty body in strict mode
throws `BadRequestError('Empty body not allowed in strict mode')`; an empty
body otherwise yields `{}` without invoking `JSON.parse`; a `SyntaxError`
from `JSON.parse` is rethrown as `BadRequestError('Invalid JSON format')`
(the spec's `MalformedBody` condition is realised by these 400-status
errors). -/
def JsonParser.parseBody (cfg : JsonCfg) (raw : String) : Except TyrErr JVal :=
  if cfg.strict ∧ raw.length = 0 then
    .error (badRequest ("Empty body not allowed in strict mode"))
  else if raw.length = 0 then .ok (.jobj [])
  else
    match jsonParse raw with
    | some v => .ok v
    | none => .error (badRequest ("Invalid JSON format"))

/-! ## Multipart decoding (src/middleware/body-parser/multipart.ts)

The buffered body is a byte sequence, represented as a character list (all
boundary and header comparisons are byte-wise).  The per-decode temporary
directory is modelled by an explicit state: whether the directory exists,
the staged file names inside it, and a counter supplying the
collision-resistant file names that `generateId` derives from a hash. -/

abbrev Bytes := List Char

structure MultipartOptions where
  limit : Nat := 1048576
  maxFields : Nat := 1000
  maxFieldNameSize : Nat := 100
  maxFieldSize : Nat := 1048576
  maxFileSize : Nat := 10485760
  preserveExtension : Bool := true
deriving DecidableEq

structure Part where
  headers : List (String × String)
  data : Bytes
deriving DecidableEq

structure MultipartField where
  fieldname : String
  value : String
deriving DecidableEq

structure MultipartFile where
  fieldname : String
  originalname : String
  encoding : String
  mimetype : String
  size : Nat
deriving DecidableEq

structure FsState where
  tempDirExists : Bool := false
  files : List String := []
  counter : Nat := 0
deriving DecidableEq

/-- `cleanup()`: `rm -rf` of the temporary directory; never raises. -/
def MultipartParser.cleanup (fs : FsState) : FsState :=
  { fs with tempDirExists := false, files := [] }

/-- Case-insensitive literal prefix test (for the `/i` regex flag). -/
def isCIPrefix : List Char → List Char → Bool
  | [], _ => true
  | _, [] => false
  | p :: ps, c :: cs => (p.toLower = c.toLower) && isCIPrefix ps cs

/-- The alternation `(?:"([^"]+)"|([^;]+))` applied right after a
`boundary=` occurrence: a nonempty double-quoted token, or else a maximal
nonempty run of non-`;` characters (which may itself start with `"` when
the quoted branch fails). -/
def boundaryAlt (s : List Char) : Option (List Char) :=
  let unquoted :=
    let content := s.takeWhile (· ≠ ';')
    if content.isEmpty then none else some content
  match s with
  | '"' :: rest =>
    let content := rest.takeWhile (· ≠ '"')
    if ¬content.isEmpty ∧ (rest.drop content.length).head? = some '"' then some content
    else unquoted
  | _ => unquoted

/-- Scan of `/boundary=(?:"([^"]+)"|([^;]+))/i`: leftmost occurrence of
`boundary=` (case-insensitive) at which the alternation succeeds. -/
def scanBoundary : List Char → Option (List Char)
  | [] => none
  | s@(_ :: rest) =>
    if isCIPrefix ("boundary=".data) s then
      match boundaryAlt (s.drop 9) with
      | some b => some b
      | none => scanBoundary rest
    else scanBoundary rest

/-- `extractBoundary`: requires a content-type header and a boundary token,
and returns `'--' + token`. -/
def MultipartParser.extractBoundary (contentType : Option String) : Except TyrErr String :=
  match contentType with
  | none => .error (badRequest ("Missing content type"))
  | some ct =>
    match scanBoundary ct.data with
    | none => .error (badRequest ("No multipart boundary found"))
    | some tok => .ok ("--" ++ (⟨tok⟩ : String))

def crlf : List Char := ['\r', '\n']

def isJsWsChar (c : Char) : Bool :=
  c = ' ' ∨ c = '\t' ∨ c = '\n' ∨ c = '\r' ∨ c = Char.ofNat 11 ∨ c = Char.ofNat 12

/-- `String.prototype.trim` (ASCII whitespace suffices here). -/
def trimChars (s : List Char) : List Char :=
  ((s.dropWhile isJsWsChar).reverse.dropWhile isJsWsChar).reverse

/-- The header block of one part: lines terminated by `\r\n` up to an empty
line; each line is split at its first `:`, the key lower-cased, the value
trimmed.  Returns the accumulated headers and the position after the block.
The fuel is bounded by the buffer length; every line consumes at least two
characters. -/
def parseHeadersLoop (raw : Bytes) : Nat → Nat → List (String × String) →
    List (String × String) × Nat
  | 0, pos, acc => (acc, pos)
  | fuel + 1, pos, acc =>
    if pos < raw.length then
      match indexOfFrom raw crlf pos with
      | none => (acc, pos)
      | some lineEnd =>
        let line := (raw.drop pos).take (lineEnd - pos)
        let pos' := lineEnd + 2
        if line.isEmpty then (acc, pos')
        else
          let key := line.takeWhile (· ≠ ':')
          let value : List Char :=
            if key.length = line.length then [] else trimChars (line.drop (key.length + 1))
          parseHeadersLoop raw fuel pos'
            (upsert acc (lowerStr (⟨key⟩ : String)) (⟨value⟩ : String))
    else (acc, pos)

/-- The scanning state of an unfinished part: its parsed headers and the
data chunks accumulated so far. -/
structure PartAcc where
  headers : List (String × String)
  chunks : List Bytes

/-- The main `parseParts` loop over the buffer, position-based exactly as in
the source: check for the final boundary marker, skip one CRLF, parse a
header block when no part is open, then consume bytes up to the next
boundary marker (or the end of the buffer).  Every continuing iteration
advances the position, so fuel `raw.length + 1` is never exhausted. -/
def partsLoop (raw : Bytes) (bm fbm : List Char) :
    Nat → Nat → Option PartAcc → List Part → List Part
  | 0, _, _, acc => acc
  | fuel + 1, pos, cur, acc =>
    if pos < raw.length then
      if fbm.isPrefixOf (raw.drop pos) then acc
      else
        let pos1 := if (raw.drop pos).take 2 = crlf then pos + 2 else pos
        let (cur1, pos2) :=
          match cur with
          | none =>
            let (hdrs, p) := parseHeadersLoop raw (raw.length + 1) pos1 []
            (PartAcc.mk hdrs [], p)
          | some c => (c, pos1)
        match indexOfFrom raw bm pos2 with
        | some nb =>
          let piece := (raw.drop pos2).take (nb - pos2)
          let part : Part := { headers := cur1.headers, data := (cur1.chunks ++ [piece]).flatten }
          partsLoop raw bm fbm fuel (nb + bm.length) none (acc ++ [part])
        | none =>
          let piece := raw.drop pos2
          partsLoop raw bm fbm fuel raw.length
            (some { cur1 with chunks := cur1.chunks ++ [piece] }) acc
    else acc

/-- `parseParts`: skip past the first occurrence of the boundary (JS
`indexOf` returns -1 when absent, so the start position is then
`boundary.length - 1`) and run the part-scanning loop. -/
def MultipartParser.parseParts (bnd : String) (raw : Bytes) : List Part :=
  let bm := crlf ++ bnd.data
  let fbm := crlf ++ bnd.data ++ ['-', '-']
  let start :=
    match findSubIdx bnd.data raw with
    | some i => i + bnd.data.length
    | none => bnd.data.length - 1
  partsLoop raw bm fbm (raw.length + 1) start none []

/-- Leftmost match of `pre ++ "([^"]+)"`: the capture is the maximal
nonempty run of non-quote characters after the literal prefix, provided a
closing quote follows. -/
def matchQuoted (pre : List Char) : List Char → Option (List Char)
  | [] => none
  | s@(_ :: rest) =>
    if pre.isPrefixOf s then
      let afterPre := s.drop pre.length
      let content := afterPre.takeWhile (· ≠ '"')
      if ¬content.isEmpty ∧ (afterPre.drop content.length).head? = some '"' then some content
      else matchQuoted pre rest
    else matchQuoted pre rest

/-- `contentDisposition.match(/name="([^"]+)"/)` (note: this also matches
inside a `filename="..."` attribute, faithfully to the source). -/
def nameAttr (cd : String) : Option String :=
  (matchQuoted ("name=\"".data) cd.data).map (fun cs => (⟨cs⟩ : String))

def filenameAttr (cd : String) : Option String :=
  (matchQuoted ("filename=\"".data) cd.data).map (fun cs => (⟨cs⟩ : String))

/-- The `content-disposition` header of a part as `processParts` reads it;
an empty value is JS-falsy and treated like an absent header. -/
def contentDispositionOf (p : Part) : Option String :=
  match jsMapGet p.headers ("content-disposition") with
  | none => none
  | some v => if v = "" then none else some v

/-- A part header value with a JS-falsy default (`h || dflt`). -/
def headerOr (p : Part) (k dflt : String) : String :=
  match jsMapGet p.headers k with
  | none => dflt
  | some v => if v = "" then dflt else v

/-- `processFile`: rejects payloads above `maxFileSize` with
`BadRequestError('File too large')`; otherwise derives the extension
(`originalname.slice(originalname.lastIndexOf('.'))`, which is the last
character when no dot exists), stages the payload under a fresh generated
name and returns the file record. -/
def MultipartParser.processFile (opts : MultipartOptions) (fieldname originalname : String)
    (p : Part) (fs : FsState) : Except TyrErr MultipartFile × FsState :=
  if p.data.length > opts.maxFileSize then
    (.error (badRequest ("File too large")), fs)
  else
    let ext : List Char :=
      if opts.preserveExtension then
        match findSubIdx ['.'] originalname.data.reverse with
        | some revIdx => originalname.data.drop (originalname.data.length - 1 - revIdx)
        | none => originalname.data.drop (originalname.data.length - 1)
      else []
    let filename := "file-" ++ toString fs.counter ++ (⟨ext⟩ : String)
    let fs' := { fs with files := fs.files ++ [filename], counter := fs.counter + 1 }
    (.ok { fieldname := fieldname
           originalname := originalname
           encoding := headerOr p ("content-transfer-encoding") ("7bit")
           mimetype := headerOr p ("content-type") ("application/octet-stream")
           size := p.data.length }, fs')

/-- The `processParts` loop: enforces `maxFields` before each part, skips
parts without a usable `content-disposition` `name`, enforces
`maxFieldNameSize`, classifies by the presence of a `filename` attribute,
enforces `maxFieldSize` for fields, and delegates files to `processFile`. -/
def processPartsLoop (opts : MultipartOptions) :
    List Part → Nat → List MultipartField → List MultipartFile → FsState →
      Except TyrErr (List MultipartField × List MultipartFile) × FsState
  | [], _, fields, files, fs => (.ok (fields, files), fs)
  | p :: ps, count, fields, files, fs =>
    if count ≥ opts.maxFields then (.error (badRequest ("Too many fields")), fs)
    else
      match contentDispositionOf p with
      | none => processPartsLoop opts ps count fields files fs
      | some cd =>
        match nameAttr cd with
        | none => processPartsLoop opts ps count fields files fs
        | some nm =>
          if nm.length > opts.maxFieldNameSize then
            (.error (badRequest ("Field name too long")), fs)
          else
            match filenameAttr cd with
            | some fn =>
              (match MultipartParser.processFile opts nm fn p fs with
               | (.error e, fs') => (.error e, fs')
               | (.ok f, fs') => processPartsLoop opts ps (count + 1) fields (files ++ [f]) fs')
            | none =>
              if p.data.length > opts.maxFieldSize then
                (.error (badRequest ("Field value too large")), fs)
              else
                processPartsLoop opts ps (count + 1)
                  (fields ++ [{ fieldname := nm, value := (⟨p.data⟩ : String) }]) files fs

/-- `MultipartParser.parse`: ensure the temporary directory exists, then —
inside the `try`/`catch` that invokes `cleanup()` before re-raising —
extract the boundary, buffer the body under the byte limit, split it into
parts and process them. -/
def MultipartParser.parse (opts : MultipartOptions) (contentType : Option String)
    (raw : Bytes) (fs : FsState) :
    Except TyrErr (List MultipartField × List MultipartFile) × FsState :=
  let fs0 := { fs with tempDirExists := true }
  match MultipartParser.extractBoundary contentType with
  | .error e => (.error e, MultipartParser.cleanup fs0)
  | .ok bnd =>
    if opts.limit ≠ 0 ∧ raw.length > opts.limit then
      (.error (badRequest ("Request body too large")), MultipartParser.cleanup fs0)
    else
      let parts := MultipartParser.parseParts bnd raw
      match processPartsLoop opts parts 0 [] [] fs0 with
      | (.error e, fs1) => (.error e, MultipartParser.cleanup fs1)
      | (.ok r, fs1) => (.ok r, fs1)

/-- The classification under which `processParts` reaches `processFile`
with an oversized payload: a usable `content-disposition` with `name` and
`filename` attributes and a payload above `maxFileSize`. -/
def isOversizeFilePart (opts : MultipartOptions) (p : Part) : Bool :=
  match contentDispositionOf p with
  | none => false
  | some cd => (nameAttr cd).isSome && (filenameAttr cd).isSome &&
      decide (p.data.length > opts.maxFileSize)

def hasOversizeFilePart (opts : MultipartOptions) (parts : List Part) : Bool :=
  parts.any (isOversizeFilePart opts)

/-! ## Concrete fixtures used by witnesses and counterexamples -/

/-- An error handler that sends a 418 response with body `"teapot"`. -/
def teapotEH : EHandler := fun _ r =>
  match (r.status 418).json (.jstr "teapot") with
  | .ok r' => (r', false)
  | .error _ => (r.status 418, true)

def err0 : TyrErr := { message := "boom", statusCode := 500 }

/-- Routes registered in order: `POST /a/:x` first, then `GET /a/b`. -/
def demoRouter : Router :=
  (Router.empty.addRoute .POST ("/a/:x") 1).addRoute .GET ("/a/b") 2

def usersRouter : Router :=
  Router.empty.addRoute .GET ("/users/:id") 1

def mpCt : String := "multipart/form-data; boundary=X"

def mpBody : Bytes :=
  ("--X\r\ncontent-disposition: form-data; name=\"f\"; filename=\"a.txt\"\r\n\r\nAAAAAA\r\n--X--").data

def mpOpts : MultipartOptions := { maxFileSize := 5 }

/-- A decoder whose `detect` accepts every content type, the empty string
included (as `RawParser` without an allow-list also does). -/
def catchAllParser : Parser := { id := "catchall", detect := fun _ => true }

/-- The consecutive block of chain positions `a, a+1, ..., b-1`, used to
state which handlers a middleware-chain execution invokes. -/
def loggedBetween (a b : Nat) : List Nat :=
  (List.range (b - a)).map (a + ·)

/-! # Theorems -/

/-! ## Response-object invariants (claim C3) -/

theorem status_sent_eq (r : Resp) (c : Nat) : (r.status c).sent = r.sent := rfl

theorem header_fails_of_sent (r : Resp) (n v : String) (h : r.sent = true) :
    r.header n v = .error alreadySentMsg := by
  simp [Resp.header, Resp.checkSent, h]

theorem json_fails_of_sent (r : Resp) (d : JVal) (h : r.sent = true) :
    r.json d = .error alreadySentMsg := by
  simp [Resp.json, Resp.checkSent, h]

theorem send_fails_of_sent (r : Resp) (s : String) (h : r.sent = true) :
    r.send s = .error alreadySentMsg := by
  simp [Resp.send, Resp.checkSent, h]

theorem redirect_fails_of_sent (r : Resp) (u : String) (c : Nat) (h : r.sent = true) :
    r.redirect u c = .error alreadySentMsg := by
  simp [Resp.redirect, Resp.checkSent, h]

theorem runOps_count_zero_of_sent (ops : List ROp) :
    ∀ r : Resp, r.sent = true → (runOps r ops).2 = 0 := by
  induction ops with
  | nil => intro r _; rfl
  | cons op ops ih =>
    intro r h
    cases op with
    | opStatus c =>
      have h' : (r.status c).sent = true := h
      simp [runOps, applyROp, isSender, ih _ h']
    | opHeader n v =>
      simp [runOps, applyROp, header_fails_of_sent r n v h, ih _ h]
    | opJson d =>
      simp [runOps, applyROp, json_fails_of_sent r d h, ih _ h]
    | opSend s =>
      simp [runOps, applyROp, send_fails_of_sent r s h, ih _ h]
    | opRedirect u c =>
      simp [runOps, applyROp, redirect_fails_of_sent r u c h, ih _ h]

theorem runOps_count_le_one (ops : List ROp) :
    ∀ r : Resp, (runOps r ops).2 ≤ 1 := by
  induction ops with
  | nil => intro r; simp [runOps]
  | cons op ops ih =>
    intro r
    by_cases h : r.sent = true
    · rw [runOps_count_zero_of_sent (op :: ops) r h]
      omega
    · rw [Bool.not_eq_true] at h
      cases op with
      | opStatus c =>
        simp only [runOps, applyROp, isSender]
        have := ih (r.status c)
        simp only [Bool.false_eq_true, if_false]
        omega
      | opHeader n v =>
        simp only [runOps, applyROp, Resp.header, Resp.checkSent, h]
        simp only [Bool.false_eq_true, if_false, isSender]
        have := ih (r.setHeaderRaw n v)
        omega
      | opJson d =>
        simp only [runOps, applyROp, Resp.json, Resp.checkSent, h]
        simp only [Bool.false_eq_true, if_false, isSender]
        rw [runOps_count_zero_of_sent ops _ rfl]
        simp
      | opSend s =>
        simp only [runOps, applyROp, Resp.send, Resp.checkSent, h]
        simp only [Bool.false_eq_true, if_false, isSender]
        rw [runOps_count_zero_of_sent ops _ rfl]
        simp
      | opRedirect u c =>
        simp only [runOps, applyROp, Resp.redirect, Resp.checkSent, h]
        simp only [Bool.false_eq_true, if_false, isSender]
        rw [runOps_count_zero_of_sent ops _ rfl]
        simp

/-- C3 (counterexample): the claim that EVERY mutation attempt on a sent
response fails is refuted by `status`, which performs no sent-check: after a
successful `json` the response is sent, yet `status(404)` still succeeds and
mutates the status code. -/
theorem response_status_after_sent_counterexample :
    ∃ r1 : Resp, freshResp.json (.jstr "ok") = .ok r1 ∧ r1.sent = true ∧
      (r1.status 404).statusCode = 404 :=
  ⟨_, rfl, rfl, rfl⟩

/-- C3 (amended): once a response is sent, `header`, `json`, `send` and
`redirect` all fail with the `ResponseAlreadySent` condition, but `status`
performs no sent-check and still succeeds in mutating the status code; and
over any sequence of mutation attempts on a fresh response, at most one of
`json`/`send`/`redirect` succeeds. -/
theorem response_sent_invariant :
    (∀ (r : Resp) (n v : String), r.sent = true → r.header n v = .error alreadySentMsg) ∧
    (∀ (r : Resp) (d : JVal), r.sent = true → r.json d = .error alreadySentMsg) ∧
    (∀ (r : Resp) (s : String), r.sent = true → r.send s = .error alreadySentMsg) ∧
    (∀ (r : Resp) (u : String) (c : Nat), r.sent = true →
      r.redirect u c = .error alreadySentMsg) ∧
    (∀ (r : Resp) (c : Nat), (r.status c).statusCode = c ∧ (r.status c).sent = r.sent) ∧
    (∀ ops : List ROp, (runOps freshResp ops).2 ≤ 1) :=
  ⟨header_fails_of_sent, json_fails_of_sent, send_fails_of_sent, redirect_fails_of_sent,
    fun _ _ => ⟨rfl, rfl⟩, fun ops => runOps_count_le_one ops freshResp⟩

/-- Closed instantiation of `response_sent_invariant`. -/
theorem response_sent_invariant_witness :
    ({ freshResp with sent := true } : Resp).header ("x") ("y") = .error alreadySentMsg ∧
    ({ freshResp with sent := true } : Resp).json .jnull = .error alreadySentMsg ∧
    ({ freshResp with sent := true } : Resp).send ("z") = .error alreadySentMsg ∧
    ({ freshResp with sent := true } : Resp).redirect ("/u") 302 = .error alreadySentMsg ∧
    (runOps freshResp [.opJson .jnull, .opSend ("a"), .opRedirect ("/u") 302]).2 ≤ 1 :=
  ⟨response_sent_invariant.1 _ _ _ rfl,
   response_sent_invariant.2.1 _ _ rfl,
   response_sent_invariant.2.2.1 _ _ rfl,
   response_sent_invariant.2.2.2.1 _ _ 302 rfl,
   response_sent_invariant.2.2.2.2.2 _⟩

/-! ## Error chain (claim C1) -/

theorem defaultErrorHandler_sends (e : TyrErr) (r : Resp) (h : r.sent = false) :
    (defaultErrorHandler e r).2 = false ∧ (defaultErrorHandler e r).1.sent = true := by
  simp [defaultErrorHandler, Resp.json, Resp.checkSent, Resp.status, Resp.setHeaderRaw, h]

/-- C1 (counterexample): a user handler registered via `onError` that sends
a 418 response never runs: `handleError` tries `errorHandlers` in array
order and the constructor put `defaultErrorHandler` at index 0, which always
sends, so the overall response carries the default 500 status, not 418. -/
theorem errorChain_user_handler_never_runs :
    (teapotEH err0 freshResp).1.statusCode = 418 ∧
    (teapotEH err0 freshResp).1.sent = true ∧
    (teapotEH err0 freshResp).2 = false ∧
    (serverHandleError [teapotEH] err0 freshResp).statusCode = 500 ∧
    (serverHandleError [teapotEH] err0 freshResp).body =
      some (.pjson (.jobj [("error", .jobj
        [("message", .jstr ("boom")), ("statusCode", .jnum 500)])])) :=
  ⟨rfl, rfl, rfl, rfl, rfl⟩

/-- C1 (amended): error handlers are tried in registration order, but the
constructor registers the built-in default handler FIRST, so on an unsent
response the whole chain behaves exactly like `defaultErrorHandler` alone
(always sending) and user-registered handlers never execute; within the
loop, a handler that throws is caught and the chain proceeds, a handler
after which the response is sent ends the chain, and if the loop ends with
nothing sent the built-in default handler runs as the final fallback and
sends. -/
theorem errorChain_contract :
    (∀ (user : List EHandler) (e : TyrErr) (r : Resp), r.sent = false →
      serverHandleError user e r = (defaultErrorHandler e r).1 ∧
      (serverHandleError user e r).sent = true) ∧
    (∀ (h : EHandler) (hs : List EHandler) (e : TyrErr) (r r' : Resp),
      h e r = (r', true) → handleErrorLoop (h :: hs) e r = handleErrorLoop hs e r') ∧
    (∀ (h : EHandler) (hs : List EHandler) (e : TyrErr) (r r' : Resp),
      h e r = (r', false) → r'.sent = false →
      handleErrorLoop (h :: hs) e r = handleErrorLoop hs e r') ∧
    (∀ (h : EHandler) (hs : List EHandler) (e : TyrErr) (r r' : Resp),
      h e r = (r', false) → r'.sent = true → handleErrorLoop (h :: hs) e r = r') ∧
    (∀ (hs : List EHandler) (e : TyrErr) (r : Resp),
      (handleErrorLoop hs e r).sent = false →
      handleError hs e r = (defaultErrorHandler e (handleErrorLoop hs e r)).1) := by
  refine ⟨?_, ?_, ?_, ?_, ?_⟩
  · intro user e r hr
    obtain ⟨h2, h1⟩ := defaultErrorHandler_sends e r hr
    rcases hde : defaultErrorHandler e r with ⟨r', b⟩
    rw [hde] at h2 h1
    simp only at h2 h1
    subst h2
    have hloop : handleErrorLoop (serverErrorHandlers user) e r = r' := by
      simp [serverErrorHandlers, handleErrorLoop, hde, h1]
    constructor
    · simp [serverHandleError, handleError, hloop, h1]
    · simp [serverHandleError, handleError, hloop, h1]
  · intro h hs e r r' hthrow
    simp [handleErrorLoop, hthrow]
  · intro h hs e r r' hok hsent
    simp [handleErrorLoop, hok, hsent]
  · intro h hs e r r' hok hsent
    simp [handleErrorLoop, hok, hsent]
  · intro hs e r hsent
    simp [handleError, hsent]

/-- Closed instantiation of `errorChain_contract`. -/
theorem errorChain_contract_witness :
    serverHandleError [teapotEH] err0 freshResp = (defaultErrorHandler err0 freshResp).1 ∧
    (serverHandleError [teapotEH] err0 freshResp).sent = true :=
  errorChain_contract.1 [teapotEH] err0 freshResp rfl

/-! ## Parser registry selection (claims C2 and C6) -/

theorem parser_ne_of_id_ne (p q : Parser) (h : p.id ≠ q.id) : p ≠ q := by
  intro he
  exact h (congrArg Parser.id he)

/-- C6 (counterexample): the claim quantifies over every content-type
string, but for the empty string `findParser` short-circuits on its JS-falsy
guard and returns no decoder even though the catch-all raw parser —
registered FIRST, ahead of another decoder that also detects the type — does
detect it: registering `A` before `B`, both detecting `""`, does not select
`A`. -/
theorem findParser_empty_catchall_counterexample :
    rawParser.detect ("") = true ∧ catchAllParser.detect ("") = true ∧
    findParser [rawParser, catchAllParser] ("") = none ∧
    findParser [rawParser, catchAllParser] ("") ≠ some rawParser :=
  ⟨by decide, by decide, rfl, by simp [findParser]⟩

/-- C6 (amended): for every NONEMPTY content type, `findParser` is
first-match over insertion order: if every parser registered before `A`
rejects the type and `A` detects it, then `A` is selected — in particular
registering a decoder `A` before a decoder `B`, where both detect a given
nonempty type, always selects `A`; for the empty content-type string
`findParser` returns no decoder, whatever is registered. -/
theorem findParser_first_match :
    (∀ (ps qs : List Parser) (A : Parser) (ct : String),
      ct ≠ "" → A.detect ct = true → (∀ p ∈ ps, p.detect ct = false) →
      findParser (ps ++ A :: qs) ct = some A) ∧
    (∀ regs : List Parser, findParser regs ("") = none) := by
  refine ⟨?_, fun regs => rfl⟩
  intro ps qs A ct hct hA hps
  induction ps with
  | nil =>
    simp only [findParser, if_neg hct, List.nil_append]
    rw [List.find?_cons_of_pos _ (by simp [hA])]
  | cons p ps ih =>
    have hp : p.detect ct = false := hps p (by simp)
    have hrest : ∀ q ∈ ps, q.detect ct = false := fun q hq => hps q (by simp [hq])
    have hprev := ih hrest
    simp only [findParser, if_neg hct] at hprev ⊢
    rw [List.cons_append, List.find?_cons_of_neg _ (by simp [hp])]
    exact hprev

/-- Closed instantiation of `findParser_first_match`: the url-encoded parser
registered after the (rejecting) JSON parser and before the catch-all raw
parser is selected for its content type, and the empty content type selects
nothing. -/
theorem findParser_first_match_witness :
    findParser ([jsonParser] ++ urlencodedParser :: [rawParser])
      ("application/x-www-form-urlencoded") = some urlencodedParser ∧
    findParser [rawParser, catchAllParser] ("") = none :=
  ⟨findParser_first_match.1 [jsonParser] [rawParser] urlencodedParser
    ("application/x-www-form-urlencoded") (by decide) (by decide)
    (fun p hp => by
      rw [List.mem_singleton] at hp
      subst hp
      decide),
   findParser_first_match.2 [rawParser, catchAllParser]⟩

/-- C2 (counterexample): for the empty content-type string — which contains
neither `application/json` nor `application/x-www-form-urlencoded`, so the
claim demands the raw parser — `findParser` short-circuits on the JS-falsy
check and returns no parser at all. -/
theorem findParser_empty_counterexample :
    JsonParser.detect ("") = false ∧ UrlEncodedParser.detect ("") = false ∧
    findParser configureBodyParsersDefault ("") = none :=
  ⟨by decide, by decide, rfl⟩

/-- C2 (amended): the default registry holds, in order, the JSON,
url-encoded, raw, text and multipart parsers; `findParser` returns the JSON
parser for every content type that (case-insensitively) contains
`application/json`, the url-encoded parser for every remaining content type
containing `application/x-www-form-urlencoded`, and the raw parser — whose
`detect` accepts everything when no allow-list is configured — for every
other NONEMPTY content type (including `text/plain` and
`multipart/form-data`); the empty content-type string yields no parser, and
the text and multipart parsers registered after the raw parser are never
selected. -/
theorem defaultRegistry_selection :
    configureBodyParsersDefault =
      [jsonParser, urlencodedParser, rawParser, textParser, multipartParser] ∧
    (∀ ct, JsonParser.detect ct = true →
      findParser configureBodyParsersDefault ct = some jsonParser) ∧
    (∀ ct, JsonParser.detect ct = false → UrlEncodedParser.detect ct = true →
      findParser configureBodyParsersDefault ct = some urlencodedParser) ∧
    (∀ ct, ct ≠ "" → JsonParser.detect ct = false → UrlEncodedParser.detect ct = false →
      findParser configureBodyParsersDefault ct = some rawParser) ∧
    findParser configureBodyParsersDefault ("") = none ∧
    (∀ ct, findParser configureBodyParsersDefault ct ≠ some textParser ∧
      findParser configureBodyParsersDefault ct ≠ some multipartParser) := by
  have hreg : configureBodyParsersDefault =
      [jsonParser, urlencodedParser, rawParser, textParser, multipartParser] := rfl
  have hjson : ∀ ct, JsonParser.detect ct = true →
      findParser configureBodyParsersDefault ct = some jsonParser := by
    intro ct h
    have hct : ct ≠ "" := by
      intro he
      subst he
      exact absurd h (by decide)
    simp [findParser, hct, configureBodyParsersDefault, registerParser, List.find?,
      jsonParser, h]
  have hurl : ∀ ct, JsonParser.detect ct = false → UrlEncodedParser.detect ct = true →
      findParser configureBodyParsersDefault ct = some urlencodedParser := by
    intro ct hj h
    have hct : ct ≠ "" := by
      intro he
      subst he
      exact absurd h (by decide)
    simp [findParser, hct, configureBodyParsersDefault, registerParser, List.find?,
      jsonParser, urlencodedParser, hj, h]
  have hraw : ∀ ct, ct ≠ "" → JsonParser.detect ct = false →
      UrlEncodedParser.detect ct = false →
      findParser configureBodyParsersDefault ct = some rawParser := by
    intro ct hct hj hu
    simp [findParser, hct, configureBodyParsersDefault, registerParser, List.find?,
      jsonParser, urlencodedParser, rawParser, RawParser.detect, hj, hu]
  refine ⟨hreg, hjson, hurl, hraw, rfl, ?_⟩
  intro ct
  by_cases hct : ct = ""
  · subst hct
    constructor <;> simp [findParser]
  · by_cases hj : JsonParser.detect ct = true
    · rw [hjson ct hj]
      constructor
      · simp [parser_ne_of_id_ne jsonParser textParser (by decide)]
      · simp [parser_ne_of_id_ne jsonParser multipartParser (by decide)]
    · rw [Bool.not_eq_true] at hj
      by_cases hu : UrlEncodedParser.detect ct = true
      · rw [hurl ct hj hu]
        constructor
        · simp [parser_ne_of_id_ne urlencodedParser textParser (by decide)]
        · simp [parser_ne_of_id_ne urlencodedParser multipartParser (by decide)]
      · rw [Bool.not_eq_true] at hu
        rw [hraw ct hct hj hu]
        constructor
        · simp [parser_ne_of_id_ne rawParser textParser (by decide)]
        · simp [parser_ne_of_id_ne rawParser multipartParser (by decide)]

/-- Closed instantiation of `defaultRegistry_selection`: `text/plain` and
`multipart/form-data` both select the raw parser under the default
configuration. -/
theorem defaultRegistry_selection_witness :
    findParser configureBodyParsersDefault ("text/plain") = some rawParser ∧
    findParser configureBodyParsersDefault ("multipart/form-data") = some rawParser ∧
    findParser configureBodyParsersDefault ("application/json") = some jsonParser :=
  ⟨defaultRegistry_selection.2.2.2.1 ("text/plain") (by decide) (by decide) (by decide),
   defaultRegistry_selection.2.2.2.1 ("multipart/form-data") (by decide) (by decide) (by decide),
   defaultRegistry_selection.2.1 ("application/json") (by decide)⟩

/-! ## JSON decoder (claim C7) -/

/-- C7 (confirmed): with the strict option enabled, decoding an empty body
fails with the `MalformedBody` condition (a 400 `BadRequestError`); with
strict disabled, an empty body yields the empty structure `{}` without
touching `JSON.parse`; and a non-empty body that `JSON.parse` rejects fails
with the `MalformedBody` condition `Invalid JSON format`. -/
theorem jsonParser_empty_and_malformed :
    (∀ cfg : JsonCfg, cfg.strict = true →
      JsonParser.parseBody cfg ("") =
        .error (badRequest ("Empty body not allowed in strict mode"))) ∧
    (∀ cfg : JsonCfg, cfg.strict = false →
      JsonParser.parseBody cfg ("") = .ok (.jobj [])) ∧
    (∀ (cfg : JsonCfg) (s : String), s.length ≠ 0 → jsonParse s = none →
      JsonParser.parseBody cfg s = .error (badRequest ("Invalid JSON format"))) := by
  refine ⟨?_, ?_, ?_⟩
  · intro cfg h
    simp [JsonParser.parseBody, h]
  · intro cfg h
    simp [JsonParser.parseBody, h]
  · intro cfg s hlen hparse
    simp [JsonParser.parseBody, hlen, hparse]

/-- Closed instantiation of `jsonParser_empty_and_malformed` (the malformed
input being the unterminated array `[`). -/
theorem jsonParser_empty_and_malformed_witness :
    JsonParser.parseBody { strict := true } ("") =
      .error (badRequest ("Empty body not allowed in strict mode")) ∧
    JsonParser.parseBody { strict := false } ("") = .ok (.jobj []) ∧
    JsonParser.parseBody { strict := true } ("[") =
      .error (badRequest ("Invalid JSON format")) :=
  ⟨jsonParser_empty_and_malformed.1 _ rfl,
   jsonParser_empty_and_malformed.2.1 _ rfl,
   jsonParser_empty_and_malformed.2.2 _ ("[") (by decide) rfl⟩

/-! ## Route parameter binding (claim C8) -/

/-- C8 (confirmed): captured path segments are assigned positionally to the
declared parameter names in declared order, a missing capture binds to the
empty string rather than failing, and concretely a route registered as
`/users/:id` resolves `/users/42` with `params.id = "42"` and does not
match `/users/42/extra`. -/
theorem route_param_binding :
    usersRouter.findRoute .GET ("/users/42") =
      some ({ method := .GET, path := "/users/:id", handlerId := 1 }, [("id", "42")]) ∧
    usersRouter.findRoute .GET ("/users/42/extra") = none ∧
    (createRoutePattern ("/users/:id")).paramNames = ["id"] ∧
    (∀ names caps, (bindParams names caps).map Prod.fst = names) ∧
    (∀ (n : String) names (c : String) caps,
      bindParams (n :: names) (c :: caps) = (n, c) :: bindParams names caps) ∧
    (∀ names, bindParams names [] = names.map (fun n => (n, ""))) := by
  refine ⟨by decide, by decide, by decide, ?_, fun n names c caps => rfl, ?_⟩
  · intro names
    induction names with
    | nil => intro caps; rfl
    | cons n ns ih =>
      intro caps
      cases caps with
      | nil => simp [bindParams, ih]
      | cons c cs => simp [bindParams, ih]
  · intro names
    induction names with
    | nil => rfl
    | cons n ns ih => simp [bindParams, ih]

/-! ## Route resolution (claim C4) -/

theorem findRouteScan_eq_none_iff (patterns : List (String × RoutePattern))
    (m : HttpMethod) (p : String)
    (routes : List (String × List (HttpMethod × RouteEntry))) :
    findRouteScan patterns m p routes = none ↔
      ∀ e ∈ routes, entryResolves patterns m p e = false := by
  induction routes with
  | nil => simp [findRouteScan]
  | cons hd tl ih =>
    obtain ⟨routePath, methods⟩ := hd
    simp only [findRouteScan]
    cases hpat : jsMapGet patterns routePath with
    | none =>
      simp [ih, entryResolves, hpat]
    | some rp =>
      cases hm : pathMatch rp p with
      | none => simp [ih, entryResolves, hpat, hm]
      | some caps =>
        cases hmm : jsMapGet methods m with
        | none => simp [ih, entryResolves, hpat, hm, hmm]
        | some route => simp [entryResolves, hpat, hm, hmm]

/-- C4 (counterexample): with `POST /a/:x` registered before `GET /a/b`,
looking up `GET /a/b` finds that the FIRST pattern `/a/:x` matches the path
but lacks the method — the claim then demands no-match — yet `findRoute`
continues the scan and returns the `GET /a/b` route. -/
theorem findRoute_method_miss_counterexample :
    (pathMatch (createRoutePattern ("/a/:x")) ("/a/b")).isSome = true ∧
    jsMapGet ((jsMapGet demoRouter.routes ("/a/:x")).getD []) HttpMethod.GET = none ∧
    demoRouter.findRoute .GET ("/a/b") =
      some ({ method := .GET, path := "/a/b", handlerId := 2 }, []) := by
  refine ⟨by decide, by decide, by decide⟩

/-- C4 (amended): `findRoute` scans the patterns in registration order and
returns the first pattern that BOTH matches the literal path AND has the
requested method registered, binding the captured parameters; an entry
whose pattern matches the path but lacks the method is skipped and the scan
continues; resolution yields no-match exactly when no registered entry both
matches the path and carries the method. -/
theorem findRoute_first_resolving_entry :
    (∀ patterns m p routePath methods rest rp caps,
      jsMapGet patterns routePath = some rp → pathMatch rp p = some caps →
      jsMapGet methods m = none →
      findRouteScan patterns m p ((routePath, methods) :: rest) =
        findRouteScan patterns m p rest) ∧
    (∀ patterns m p routePath methods rest rp caps route,
      jsMapGet patterns routePath = some rp → pathMatch rp p = some caps →
      jsMapGet methods m = some route →
      findRouteScan patterns m p ((routePath, methods) :: rest) =
        some (route, bindParams rp.paramNames caps)) ∧
    (∀ (r : Router) (m : HttpMethod) (p : String),
      r.findRoute m p = none ↔ ∀ e ∈ r.routes, entryResolves r.patterns m p e = false) := by
  refine ⟨?_, ?_, ?_⟩
  · intro patterns m p routePath methods rest rp caps hpat hm hmm
    simp [findRouteScan, hpat, hm, hmm]
  · intro patterns m p routePath methods rest rp caps route hpat hm hmm
    simp [findRouteScan, hpat, hm, hmm]
  · intro r m p
    exact findRouteScan_eq_none_iff r.patterns m p r.routes

/-- Closed instantiation of `findRoute_first_resolving_entry` on the
two-pattern router: the scan skips the method-less `/a/:x` entry and the
no-match characterisation holds for a path no pattern matches. -/
theorem findRoute_first_resolving_entry_witness :
    findRouteScan demoRouter.patterns .GET ("/a/b") demoRouter.routes =
      findRouteScan demoRouter.patterns .GET ("/a/b") (demoRouter.routes.drop 1) ∧
    (demoRouter.findRoute .GET ("/zzz") = none ↔
      ∀ e ∈ demoRouter.routes, entryResolves demoRouter.patterns .GET ("/zzz") e = false) := by
  constructor
  · exact findRoute_first_resolving_entry.1 demoRouter.patterns .GET ("/a/b")
      ("/a/:x") ((jsMapGet demoRouter.routes ("/a/:x")).getD []) (demoRouter.routes.drop 1)
      (createRoutePattern ("/a/:x")) ["b"] (by decide) (by decide) (by decide)
  · exact findRoute_first_resolving_entry.2.2 demoRouter .GET ("/zzz")

/-! ## Middleware chain (claim C9) -/

theorem runProg_ret (chain : List HProg) (i : Nat) (log : List Nat) :
    (runProg chain .ret i log).val = (i, log) := by
  rw [runProg]

theorem runProg_exhausted (chain : List HProg) (k : HProg) (i : Nat) (log : List Nat)
    (h : chain.length ≤ i) :
    (runProg chain (.next k) i log).val = (runProg chain k (i + 1) log).val := by
  rw [runProg]
  split
  · rfl
  · rename_i h2 heq
    rw [List.getElem?_eq_none h] at heq
    exact Option.noConfusion heq

theorem runProg_invoke (chain : List HProg) (k : HProg) (i : Nat) (log : List Nat)
    (h : HProg) (hc : chain[i]? = some h) :
    (runProg chain (.next k) i log).val =
      (runProg chain k (runProg chain h (i + 1) (log ++ [i])).val.1
        (runProg chain h (i + 1) (log ++ [i])).val.2).val := by
  rw [runProg]
  split
  · rename_i heq
    rw [hc] at heq
    exact Option.noConfusion heq
  · rename_i h2 heq
    rw [hc] at heq
    cases heq
    rfl

theorem loggedBetween_self (a : Nat) : loggedBetween a a = [] := by
  simp [loggedBetween]

theorem loggedBetween_glue (a b c : Nat) (hab : a ≤ b) (hbc : b ≤ c) :
    loggedBetween a b ++ loggedBetween b c = loggedBetween a c := by
  unfold loggedBetween
  have hsplit : c - a = (b - a) + (c - b) := by omega
  rw [hsplit, List.range_add, List.map_append, List.map_map]
  congr 1
  apply List.map_congr_left
  intro x _
  simp
  omega

theorem loggedBetween_single (a : Nat) : loggedBetween a (a + 1) = [a] := by
  have h1 : List.range 1 = [0] := rfl
  simp [loggedBetween, h1]

theorem runProg_idx_ge (chain : List HProg) (p : HProg) (i : Nat) (log : List Nat) :
    i ≤ (runProg chain p i log).val.1 :=
  (runProg chain p i log).property

/-- The invocation log grows by exactly the consecutive block of chain
positions between the entry cursor and the final cursor (truncated at the
chain length): handlers are invoked in registration order by a forward
cursor. -/
theorem runProg_log_consecutive (chain : List HProg) :
    ∀ (p : HProg) (i : Nat) (log : List Nat),
      (runProg chain p i log).val.2 =
        log ++ loggedBetween (min i chain.length)
          (min (runProg chain p i log).val.1 chain.length) := by
  intro p i log
  induction p, i, log using runProg.induct chain with
  | case1 i log =>
    rw [runProg_ret]
    simp [loggedBetween_self]
  | case2 k i log hc ih =>
    have hlen : chain.length ≤ i := List.getElem?_eq_none_iff.mp hc
    rw [runProg_exhausted _ _ _ _ hlen]
    rw [ih]
    have e : min (i + 1) chain.length = min i chain.length := by omega
    rw [e]
  | case3 k i log h hc i1 l1 hp1 heq1 i2 l2 hp2 heq2 ihh ihk =>
    have hi : i < chain.length := by
      rcases List.getElem?_eq_some.mp hc with ⟨h2, _⟩
      exact h2
    rw [runProg_invoke _ _ _ _ _ hc]
    rw [heq1] at ihh ⊢
    simp only at ihh ⊢
    rw [heq2] at ihk ⊢
    simp only at ihk ⊢
    rw [ihk, ihh]
    have hp1n : i + 1 ≤ i1 := hp1
    have hp2n : i1 ≤ i2 := hp2
    have e1 : min i chain.length = i := by omega
    have e2 : min (i + 1) chain.length = i + 1 := by omega
    rw [e1, e2]
    have g1 : i + 1 ≤ min i1 chain.length := by omega
    have g2 : min i1 chain.length ≤ min i2 chain.length := by omega
    calc log ++ [i] ++ loggedBetween (i + 1) (min i1 chain.length) ++
          loggedBetween (min i1 chain.length) (min i2 chain.length)
        = log ++ ([i] ++ (loggedBetween (i + 1) (min i1 chain.length) ++
            loggedBetween (min i1 chain.length) (min i2 chain.length))) := by
          simp [List.append_assoc]
      _ = log ++ (loggedBetween i (i + 1) ++ (loggedBetween (i + 1) (min i1 chain.length) ++
            loggedBetween (min i1 chain.length) (min i2 chain.length))) := by
          rw [loggedBetween_single]
      _ = log ++ loggedBetween i (min i2 chain.length) := by
          rw [loggedBetween_glue _ _ _ g1 g2,
              loggedBetween_glue i (i + 1) (min i2 chain.length) (by omega) (by omega)]

theorem execute_three_second_short_circuits (h3 : HProg) :
    MiddlewareChain.execute [.next .ret, .ret, h3] = (2, [0, 1]) := by
  have e0 : ([HProg.next .ret, .ret, h3])[0]? = some (.next .ret) := rfl
  have e1 : ([HProg.next .ret, .ret, h3])[1]? = some .ret := rfl
  unfold MiddlewareChain.execute
  rw [runProg_invoke _ _ _ _ _ e0]
  rw [runProg_invoke _ _ _ _ _ e1]
  rw [runProg_ret, runProg_ret, runProg_ret]
  simp

/-- C9 (confirmed): the middleware chain is driven by a forward cursor:
calling the continuation at cursor `i` invokes the handler registered at
position `i` (appending `i` to the invocation log and advancing the
cursor), or — when the chain is exhausted — only advances the cursor; a
handler that never calls its continuation returns the state unchanged, so
the chain terminates with no error channel; the invocation log is always
the consecutive block of registration positions reached by the cursor; and
in a chain of three handlers whose first calls its continuation once and
whose second never does, the third handler is never invoked. -/
theorem middleware_chain_contract :
    (∀ (chain : List HProg) (k : HProg) (i : Nat) (log : List Nat) (h : HProg),
      chain[i]? = some h →
      (runProg chain (.next k) i log).val =
        (runProg chain k (runProg chain h (i + 1) (log ++ [i])).val.1
          (runProg chain h (i + 1) (log ++ [i])).val.2).val) ∧
    (∀ (chain : List HProg) (k : HProg) (i : Nat) (log : List Nat),
      chain.length ≤ i →
      (runProg chain (.next k) i log).val = (runProg chain k (i + 1) log).val) ∧
    (∀ (chain : List HProg) (i : Nat) (log : List Nat),
      (runProg chain .ret i log).val = (i, log)) ∧
    (∀ (chain : List HProg) (p : HProg) (i : Nat) (log : List Nat),
      (runProg chain p i log).val.2 =
        log ++ loggedBetween (min i chain.length)
          (min (runProg chain p i log).val.1 chain.length)) ∧
    (∀ h3 : HProg, MiddlewareChain.execute [.next .ret, .ret, h3] = (2, [0, 1]) ∧
      2 ∉ (MiddlewareChain.execute [.next .ret, .ret, h3]).2) := by
  refine ⟨runProg_invoke, runProg_exhausted, runProg_ret,
    fun chain p i log => runProg_log_consecutive chain p i log, ?_⟩
  intro h3
  refine ⟨execute_three_second_short_circuits h3, ?_⟩
  rw [execute_three_second_short_circuits h3]
  decide

/-- Closed instantiation of `middleware_chain_contract`. -/
theorem middleware_chain_contract_witness :
    (runProg [HProg.ret] (.next .ret) 1 []).val = (runProg [HProg.ret] .ret 2 []).val ∧
    MiddlewareChain.execute [.next .ret, .ret, .next .ret] = (2, [0, 1]) :=
  ⟨middleware_chain_contract.2.1 [HProg.ret] .ret 1 [] (by decide),
   (middleware_chain_contract.2.2.2.2 (.next .ret)).1⟩

/-! ## Lazy, memoized body decoding (claim C10) -/

/-- C10 (confirmed): `getBody` is lazy and memoized: when `bodyParsed` is
already set it returns the cached body, leaves the request unchanged and
invokes no decoder (hence does not re-read the stream); a first call that
succeeds caches the decoded value and sets `bodyParsed`, so that every
subsequent call returns exactly that value with no decoder invocation and
no state change; and a first call with a decoder available does invoke it. -/
theorem getBody_lazy_memoized :
    (∀ (regs : List Parser) (parseOf : String → String → Except TyrErr JVal) (r : Req),
      r.bodyParsed = true → getBody regs parseOf r = (.ok r.body, r, false)) ∧
    (∀ (regs : List Parser) (parseOf : String → String → Except TyrErr JVal)
      (r r' : Req) (v : JVal) (inv : Bool),
      getBody regs parseOf r = (.ok v, r', inv) →
      r'.bodyParsed = true ∧ r'.body = v ∧
      getBody regs parseOf r' = (.ok v, r', false)) ∧
    (∀ (regs : List Parser) (parseOf : String → String → Except TyrErr JVal)
      (r : Req) (ct : String) (p : Parser),
      r.bodyParsed = false → r.contentType = some ct → findParser regs ct = some p →
      (getBody regs parseOf r).2.2 = true) := by
  refine ⟨?_, ?_, ?_⟩
  · intro regs parseOf r h
    simp [getBody, h]
  · intro regs parseOf r r' v inv h
    by_cases hp : r.bodyParsed = true
    · unfold getBody at h
      rw [if_pos hp] at h
      simp only [Prod.mk.injEq, Except.ok.injEq] at h
      obtain ⟨h1, h2, h3⟩ := h
      subst h2
      subst h1
      exact ⟨hp, rfl, by simp [getBody, hp]⟩
    · unfold getBody at h
      rw [if_neg hp] at h
      split at h
      · simp at h
      · split at h
        · simp at h
        · split at h
          · simp at h
          · simp only [Prod.mk.injEq, Except.ok.injEq] at h
            obtain ⟨h1, h2, h3⟩ := h
            subst h1
            subst h2
            exact ⟨rfl, rfl, by simp [getBody]⟩
  · intro regs parseOf r ct p hbp hct hfind
    simp [getBody, hbp, hct, hfind]
    cases parseOf p.id r.raw <;> simp

/-- Closed instantiation of `getBody_lazy_memoized`. -/
theorem getBody_lazy_memoized_witness :
    getBody configureBodyParsersDefault (fun _ _ => .ok .jnull)
        { contentType := some ("application/json"), raw := "x", body := .jnull,
          bodyParsed := true } =
      (.ok .jnull,
        { contentType := some ("application/json"), raw := "x", body := .jnull,
          bodyParsed := true }, false) ∧
    (getBody configureBodyParsersDefault (fun _ _ => .ok .jnull)
        { contentType := some ("application/json"), raw := "x", body := .jnull,
          bodyParsed := false }).2.2 = true :=
  ⟨getBody_lazy_memoized.1 configureBodyParsersDefault (fun _ _ => .ok .jnull)
      { contentType := some ("application/json"), raw := "x", body := .jnull,
        bodyParsed := true } rfl,
   getBody_lazy_memoized.2.2 configureBodyParsersDefault (fun _ _ => .ok .jnull)
      { contentType := some ("application/json"), raw := "x", body := .jnull,
        bodyParsed := false } ("application/json") jsonParser rfl rfl rfl⟩

/-! ## Multipart decoding failure and cleanup (claim C5) -/

/-- Whenever the part list contains a file part whose payload exceeds
`maxFileSize`, the `processParts` loop fails with a 400 `BadRequestError`
(whichever of its limit checks fires first), for every loop state. -/
theorem processParts_oversize_fails (opts : MultipartOptions) :
    ∀ (parts : List Part) (count : Nat) (fields : List MultipartField)
      (files : List MultipartFile) (fs : FsState),
      hasOversizeFilePart opts parts = true →
      ∃ (e : TyrErr) (fs' : FsState),
        processPartsLoop opts parts count fields files fs = (.error e, fs') ∧
        e.statusCode = 400 := by
  intro parts
  induction parts with
  | nil =>
    intro count fields files fs h
    simp [hasOversizeFilePart] at h
  | cons p ps ih =>
    intro count fields files fs h
    by_cases hcnt : count ≥ opts.maxFields
    · exact ⟨badRequest ("Too many fields"), fs, by simp [processPartsLoop, hcnt], rfl⟩
    · cases hcd : contentDispositionOf p with
      | none =>
        have hp : isOversizeFilePart opts p = false := by
          simp [isOversizeFilePart, hcd]
        have hany : ps.any (isOversizeFilePart opts) = true := by
          simpa [hasOversizeFilePart, hp] using h
        obtain ⟨e, fs', heq, h400⟩ := ih count fields files fs hany
        exact ⟨e, fs', by simp [processPartsLoop, hcnt, hcd, heq], h400⟩
      | some cd =>
        cases hnm : nameAttr cd with
        | none =>
          have hp : isOversizeFilePart opts p = false := by
            simp [isOversizeFilePart, hcd, hnm]
          have hany : ps.any (isOversizeFilePart opts) = true := by
            simpa [hasOversizeFilePart, hp] using h
          obtain ⟨e, fs', heq, h400⟩ := ih count fields files fs hany
          exact ⟨e, fs', by simp [processPartsLoop, hcnt, hcd, hnm, heq], h400⟩
        | some nm =>
          by_cases hlen : nm.length > opts.maxFieldNameSize
          · exact ⟨badRequest ("Field name too long"), fs,
              by simp [processPartsLoop, hcnt, hcd, hnm, hlen], rfl⟩
          · cases hfn : filenameAttr cd with
            | some fn =>
              by_cases hsz : p.data.length > opts.maxFileSize
              · exact ⟨badRequest ("File too large"), fs,
                  by simp [processPartsLoop, hcnt, hcd, hnm, hlen, hfn,
                    MultipartParser.processFile, hsz], rfl⟩
              · have hp : isOversizeFilePart opts p = false := by
                  simp [isOversizeFilePart, hcd, hnm, hfn, hsz]
                have hany : ps.any (isOversizeFilePart opts) = true := by
                  simpa [hasOversizeFilePart, hp] using h
                simp only [processPartsLoop, if_neg hcnt, hcd, hnm, if_neg hlen, hfn,
                  MultipartParser.processFile, if_neg hsz]
                exact ih _ _ _ _ hany
            | none =>
              by_cases hfs2 : p.data.length > opts.maxFieldSize
              · exact ⟨badRequest ("Field value too large"), fs,
                  by simp [processPartsLoop, hcnt, hcd, hnm, hlen, hfn, hfs2], rfl⟩
              · have hp : isOversizeFilePart opts p = false := by
                  simp [isOversizeFilePart, hcd, hnm, hfn]
                have hany : ps.any (isOversizeFilePart opts) = true := by
                  simpa [hasOversizeFilePart, hp] using h
                simp only [processPartsLoop, if_neg hcnt, hcd, hnm, if_neg hlen, hfn,
                  if_neg hfs2]
                exact ih _ _ _ _ hany

/-- C5 (confirmed): every multipart decode whose part list contains a file
part with payload above `maxFileSize` fails with a 400 `BadRequestError`,
`cleanup()` removes the per-decode temporary directory and its staged files
before the error propagates, and no partial multipart result is returned
(the outcome is the error, never an `ok` value). -/
theorem multipart_oversize_cleanup (opts : MultipartOptions) (ct : String) (raw : Bytes)
    (fs : FsState) (bnd : String)
    (hb : MultipartParser.extractBoundary (some ct) = .ok bnd)
    (hov : hasOversizeFilePart opts (MultipartParser.parseParts bnd raw) = true) :
    ∃ e : TyrErr, (MultipartParser.parse opts (some ct) raw fs).1 = .error e ∧
      e.statusCode = 400 ∧
      (MultipartParser.parse opts (some ct) raw fs).2.tempDirExists = false ∧
      (MultipartParser.parse opts (some ct) raw fs).2.files = [] := by
  unfold MultipartParser.parse
  rw [hb]
  by_cases hlim : opts.limit ≠ 0 ∧ raw.length > opts.limit
  · exact ⟨badRequest ("Request body too large"),
      by simp [hlim], rfl, by simp [hlim, MultipartParser.cleanup],
      by simp [hlim, MultipartParser.cleanup]⟩
  · obtain ⟨e, fs', heq, h400⟩ := processParts_oversize_fails opts
      (MultipartParser.parseParts bnd raw) 0 [] [] { fs with tempDirExists := true } hov
    exact ⟨e, by simp [hlim, heq], h400, by simp [hlim, heq, MultipartParser.cleanup],
      by simp [hlim, heq, MultipartParser.cleanup]⟩

/-- Closed instantiation of `multipart_oversize_cleanup`: a one-file body
whose 6-byte payload exceeds a 5-byte `maxFileSize`. -/
theorem multipart_oversize_cleanup_witness :
    MultipartParser.extractBoundary (some mpCt) = .ok ("--X") ∧
    hasOversizeFilePart mpOpts (MultipartParser.parseParts ("--X") mpBody) = true ∧
    (∃ e : TyrErr, (MultipartParser.parse mpOpts (some mpCt) mpBody {}).1 = .error e ∧
      e.statusCode = 400 ∧
      (MultipartParser.parse mpOpts (some mpCt) mpBody {}).2.tempDirExists = false ∧
      (MultipartParser.parse mpOpts (some mpCt) mpBody {}).2.files = []) :=
  ⟨by decide, by decide,
   multipart_oversize_cleanup mpOpts mpCt mpBody {} ("--X") (by decide) (by decide)⟩

end Tyr
